import Mathlib

/-!
Formal model of the tesla-watcher script (src/main.py).

The script decodes a JSON inventory response, extracts lease deals
(`find_deals`) and emails a summary (`send_notification`).  We embed the
decoded JSON values as an inductive type `JVal`, the Python primitive
operations the script uses (`dict.get`, `dict.items`, `in`, subscript,
`len`, iteration, truthiness, `float()`, `str()`) as Lean functions that
return `Except PyErr _` where Python can raise, and the two functions of
interest as Lean functions over those primitives.  Machine floats are
modelled by rationals; `float(str)` is modelled for finite decimal
literals, the only numeric strings the upstream payload carries.
-/

/-- JSON values as decoded by Python's `json` module.  Objects are ordered
association lists (Python dicts preserve insertion order and, for decoded
JSON, have distinct keys); JSON integers and floats are kept apart because
Python prints them differently. -/
inductive JVal where
  | jnull : JVal
  | jbool : Bool → JVal
  | jint : Int → JVal
  | jfloat : ℚ → JVal
  | jstr : String → JVal
  | jarr : List JVal → JVal
  | jobj : List (String × JVal) → JVal

/-- The Python exceptions the script can raise or catch. -/
inductive PyErr where
  | attributeError : PyErr
  | typeError : PyErr
  | valueError : PyErr
  | keyError : PyErr
deriving DecidableEq

/-- First-match lookup in an ordered association list (Python dict lookup;
decoded-JSON dicts have distinct keys, so first match is the match). -/
def lookupStr (k : String) : List (String × JVal) → Option JVal
  | [] => none
  | (k2, v) :: rest => if k2 = k then some v else lookupStr k rest

/-- Does `hay` start with `needle`? -/
def startsWithL : List Char → List Char → Bool
  | _, [] => true
  | [], _ :: _ => false
  | a :: as, b :: bs => a = b && startsWithL (as) bs

/-- Does `needle` occur as a contiguous run inside `hay`? -/
def containsL (needle : List Char) : List Char → Bool
  | [] => startsWithL [] needle
  | c :: t => startsWithL (c :: t) needle || containsL needle t

/-- Python's substring test `needle in hay` for strings. -/
def strContains (hay needle : String) : Bool :=
  containsL needle.toList hay.toList

/-- Python truthiness of a decoded JSON value. -/
def truthy : JVal → Bool
  | .jnull => false
  | .jbool b => b
  | .jint n => n != 0
  | .jfloat q => q != 0
  | .jstr s => s != ""
  | .jarr xs => !xs.isEmpty
  | .jobj kvs => !kvs.isEmpty

/-- Digit run to its numeric value. -/
def digitsVal (cs : List Char) : Nat :=
  cs.foldl (fun a c => a * 10 + (Char.toNat c - 48)) 0

/-- Decimal literal body: digits, optionally with a decimal point
(`12`, `12.`, `12.5`, `.5`); anything else fails. -/
def parseFloatCore (cs : List Char) : Option ℚ :=
  let intD := cs.takeWhile Char.isDigit
  let rest := cs.drop intD.length
  match rest with
  | [] => if intD.isEmpty then none else some ((digitsVal intD : ℚ))
  | c :: fr =>
      if c = '.' then
        let frD := fr.takeWhile Char.isDigit
        if (fr.drop frD.length).isEmpty = false then none
        else if intD.isEmpty && frD.isEmpty then none
        else some ((digitsVal intD : ℚ) + (digitsVal frD : ℚ) / (10 : ℚ) ^ frD.length)
      else none

/-- Strip leading and trailing whitespace (Python `float` strips it). -/
def trimWS (cs : List Char) : List Char :=
  ((cs.dropWhile Char.isWhitespace).reverse.dropWhile Char.isWhitespace).reverse

/-- Model of Python `float(s)` on strings for finite decimal literals
(optional sign, digits, optional decimal point, surrounding whitespace
stripped).  Exponent/inf/nan spellings are outside the model and rejected;
the upstream payload's monthly payments are plain decimals. -/
def parseFloat (s : String) : Option ℚ :=
  match trimWS s.toList with
  | [] => none
  | c :: rest =>
      if c = '-' then (parseFloatCore rest).map (fun q => -q)
      else if c = '+' then parseFloatCore rest
      else parseFloatCore (c :: rest)

/-- Least `k ≥ 1` with `d ∣ 10 ^ k`, when one exists below the search bound
(true whenever `d = 2^a * 5^b`, the only denominators decimal literals
produce). -/
def fracPow (d : Nat) : Option Nat :=
  ((List.range 40).find? (fun k => 10 ^ (k + 1) % d == 0)).map (fun k => k + 1)

/-- Left-pad a digit string with zeros to width `k`. -/
def padZeros (s : String) (k : Nat) : String :=
  String.mk (List.replicate (k - s.length) '0') ++ s

/-- Nonnegative case of float printing: shortest decimal expansion of
`n / d` with at least one fractional digit (`str(150.0) = "150.0"`). -/
def fmtFloatNN (n d : Nat) : String :=
  match fracPow d with
  | some k =>
      let scaled := n * (10 ^ k / d)
      toString (scaled / 10 ^ k) ++ "." ++ padZeros (toString (scaled % 10 ^ k)) k
  | none => toString n ++ "/" ++ toString d

/-- Model of Python `str` on a float: sign, then the shortest decimal
expansion with at least one fractional digit. -/
def fmtFloat (q : ℚ) : String :=
  (if q.num < 0 then "-" else "") ++ fmtFloatNN q.num.natAbs q.den

mutual

/-- Python `repr` of a decoded JSON value (modelled for escape-free
strings, the only ones the script renders). -/
def pyRepr : JVal → String
  | .jnull => "None"
  | .jbool true => "True"
  | .jbool false => "False"
  | .jint n => toString n
  | .jfloat q => fmtFloat q
  | .jstr s => "\x27" ++ s ++ "\x27"
  | .jarr xs => "[" ++ reprElems xs ++ "]"
  | .jobj kvs => "\x7b" ++ reprPairs kvs ++ "\x7d"

/-- Comma-joined reprs of list elements. -/
def reprElems : List JVal → String
  | [] => ""
  | [v] => pyRepr v
  | v :: rest => pyRepr v ++ ", " ++ reprElems rest

/-- Comma-joined reprs of dict entries. -/
def reprPairs : List (String × JVal) → String
  | [] => ""
  | [(k, v)] => "\x27" ++ k ++ "\x27: " ++ pyRepr v
  | (k, v) :: rest => "\x27" ++ k ++ "\x27: " ++ pyRepr v ++ ", " ++ reprPairs rest

end

/-- Python `str` of a decoded JSON value (as used by f-strings): identity
on strings, `repr` otherwise. -/
def pyStr : JVal → String
  | .jstr s => s
  | v => pyRepr v

/-- Model of Python `float(v)`.  `TypeError` on `None`/list/dict,
`ValueError` on a non-numeric string; bools and numbers convert. -/
def pyFloat : JVal → Except PyErr ℚ
  | .jint n => .ok ((n : ℚ))
  | .jfloat q => .ok q
  | .jbool b => .ok (if b then 1 else 0)
  | .jstr s =>
      match parseFloat s with
      | some q => .ok q
      | none => .error .valueError
  | _ => .error .typeError

/-- `v.get(k, dflt)`: dict lookup with default; on a non-dict receiver
Python raises `AttributeError` (no attribute `get`). -/
def pyGet (v : JVal) (k : String) (dflt : JVal) : Except PyErr JVal :=
  match v with
  | .jobj kvs => .ok ((lookupStr k kvs).getD dflt)
  | _ => .error .attributeError

/-- `v.items()`: the dict's entries in insertion order; `AttributeError`
on a non-dict receiver. -/
def pyItems : JVal → Except PyErr (List (String × JVal))
  | .jobj kvs => .ok kvs
  | _ => .error .attributeError

/-- Whether a decoded value equals a given Python string under `==`. -/
def pyEqStr (v : JVal) (s : String) : Bool :=
  match v with
  | .jstr t => t = s
  | _ => false

/-- Python `needle in v` for a string needle: key test on dicts, membership
on lists, substring on strings; `TypeError` otherwise. -/
def pyIn (needle : String) : JVal → Except PyErr Bool
  | .jobj kvs => .ok (kvs.any (fun p => p.1 = needle))
  | .jarr xs => .ok (xs.any (fun x => pyEqStr x needle))
  | .jstr s => .ok (strContains s needle)
  | _ => .error .typeError

/-- Python `v[k]` for a string key: dict indexing (`KeyError` if absent);
`TypeError` on any other receiver (string/list indices must be integers). -/
def pySubscript (v : JVal) (k : String) : Except PyErr JVal :=
  match v with
  | .jobj kvs =>
      match lookupStr k kvs with
      | some x => .ok x
      | none => .error .keyError
  | _ => .error .typeError

/-- Python `len(v)`: sized containers only, `TypeError` otherwise. -/
def pyLen : JVal → Except PyErr Nat
  | .jarr xs => .ok xs.length
  | .jstr s => .ok s.length
  | .jobj kvs => .ok kvs.length
  | _ => .error .typeError

/-- Python iteration `for x in v`: list elements, string characters, or
dict keys; `TypeError` otherwise. -/
def pyIter : JVal → Except PyErr (List JVal)
  | .jarr xs => .ok xs
  | .jstr s => .ok (s.toList.map (fun c => .jstr (String.mk [c])))
  | .jobj kvs => .ok (kvs.map (fun p => .jstr p.1))
  | _ => .error .typeError

/-- `MAX_LEASE_PAYMENT = 175  # Filter locally just in case` -/
def MAX_LEASE_PAYMENT : ℚ := 175

/-- One deal dict appended by `find_deals` (keys `vin`, `year`, `price`,
`lease_payment`, `link`; the lease payment is always a Python float). -/
structure Deal where
  vin : JVal
  year : JVal
  price : JVal
  lease_payment : ℚ
  link : String

/-- One pass of the `for key, finance_data in fin_details.items()` loop
body.  `.ok (some q)` models `lease_payment = float(val); break`;
`.ok none` models falling through to the next key (non-lease key, falsy
`val`, or a coercion failure swallowed by `except (ValueError, TypeError)`);
`.error _` models an uncaught exception (the `.get` chain raises
`AttributeError` on a non-dict, which the `except` clause does not catch).
`inputs.get("monthlyPayment")` is only evaluated when the `or`'s left
operand is falsy, exactly as in Python. -/
def leaseStep (key : String) (finance_data : JVal) : Except PyErr (Option ℚ) :=
  if !strContains key "LEASE" then .ok none
  else do
    let calcV ← pyGet finance_data "calculated" (.jobj [])
    let outputs ← pyGet calcV "outputs" (.jobj [])
    let inputs ← pyGet calcV "inputs" (.jobj [])
    let o ← pyGet outputs "monthlyPayment" .jnull
    let val ← if truthy o then Except.ok o else pyGet inputs "monthlyPayment" .jnull
    if truthy val then
      match pyFloat val with
      | .ok q => .ok (some q)
      | .error _ => .ok none
    else .ok none

/-- The whole scan over `fin_details.items()`: first key whose step
resolves wins (`break`); an uncaught exception aborts the scan. -/
def resolveLoop : List (String × JVal) → Except PyErr (Option ℚ)
  | [] => .ok none
  | (k, fd) :: rest => do
      let r ← leaseStep k fd
      match r with
      | some q => .ok (some q)
      | none => resolveLoop rest

/-- The body of `find_deals`' outer loop for one `car`: field reads with
defaults, the lease scan, and the threshold filter; `.ok (some d)` when a
deal dict is appended, `.ok none` when the car is passed over. -/
def processCar (car : JVal) : Except PyErr (Option Deal) := do
  let vin ← pyGet car "VIN" (.jstr "N/A")
  let year ← pyGet car "Year" (.jstr "N/A")
  let ip ← pyGet car "InventoryPrice" (.jint 0)
  let price ← pyGet car "Price" ip
  let fin ← pyGet car "FinplatDetails" (.jobj [])
  let items ← pyItems fin
  let lp ← resolveLoop items
  match lp with
  | none => .ok none
  | some q =>
      if q ≤ MAX_LEASE_PAYMENT then
        .ok (some { vin := vin, year := year, price := price, lease_payment := q,
                    link := "https://www.tesla.com/m3/order/" ++ pyStr vin ++ "?titleStatus=USED" })
      else .ok none

/-- The outer `for car in data["results"]` loop: deals appended in listing
order; an uncaught exception in any listing aborts the whole call. -/
def processCars : List JVal → Except PyErr (List Deal)
  | [] => .ok []
  | car :: rest => do
      let d ← processCar car
      let ds ← processCars rest
      match d with
      | some x => .ok (x :: ds)
      | none => .ok ds

/-- `find_deals(data)`: guard `if not data or "results" not in data`,
then `len(data["results"])` (the analyzing print) and the loop. -/
def find_deals (data : JVal) : Except PyErr (List Deal) :=
  if !truthy data then .ok []
  else do
    let has ← pyIn "results" data
    if !has then .ok []
    else do
      let rs ← pySubscript data "results"
      let _ ← pyLen rs
      let cars ← pyIter rs
      processCars cars

/-- The listings `find_deals` iterates over (empty in the guard branches);
`find_deals = listingsOf >>= processCars`, proved below. -/
def listingsOf (data : JVal) : Except PyErr (List JVal) :=
  if !truthy data then .ok []
  else do
    let has ← pyIn "results" data
    if !has then .ok []
    else do
      let rs ← pySubscript data "results"
      let _ ← pyLen rs
      pyIter rs

/-- The lease-resolution part of one listing's processing (reaches the
scan exactly when the listing is a dict). -/
def carLease (car : JVal) : Except PyErr (Option ℚ) := do
  let fin ← pyGet car "FinplatDetails" (.jobj [])
  let items ← pyItems fin
  resolveLoop items

/-- The deal a listing contributes, if any (none also when processing the
listing raises). -/
def carToDeal (car : JVal) : Option Deal :=
  match processCar car with
  | .ok d => d
  | .error _ => none

/-- The four environment-derived configuration values
(`MAILERSEND_API_TOKEN`, `MAILERSEND_DOMAIN`, `MAIL_FROM`, `MAIL_TO`);
`os.environ.get` yields `None` for an unset variable. -/
structure Config where
  token : Option String
  domain : Option String
  mailFrom : Option String
  mailTo : Option String

/-- Python truthiness of an optional string (`None` and `""` are falsy). -/
def strTruthy : Option String → Bool
  | none => false
  | some s => s != ""

/-- f-string rendering of an optional string (`f"{None}"` is `"None"`). -/
def optStr : Option String → String
  | none => "None"
  | some s => s

/-- The JSON body `send_notification` posts to the email API. -/
structure MailPayload where
  sender : String
  recipient : String
  subject : String
  text : String
  html : String

/-- What one call of `send_notification` does: return on empty input,
return on missing config, or perform the one HTTP POST with a payload. -/
inductive NotifyResult where
  | noDeals : NotifyResult
  | configMissing : NotifyResult
  | send : MailPayload → NotifyResult

/-- Dict-valued variant of a deal as the notifier reads it:
`f"Year: {d['year']}, Lease: ${d['lease_payment']}/mo"`. -/
def dealLine (d : Deal) : String :=
  "Year: " ++ pyStr d.year ++ ", Lease: $" ++ fmtFloat d.lease_payment ++ "/mo"

/-- The accumulated `text_body`. -/
def textBody (deals : List Deal) : String :=
  deals.foldl (fun acc d => acc ++ dealLine d ++ ", Link: " ++ d.link ++ "\n")
    "Found the following Model 3 Lease deals:\n\n"

/-- The accumulated `html_body`. -/
def htmlBody (deals : List Deal) : String :=
  (deals.foldl
    (fun acc d => acc ++ "<li>" ++ dealLine d ++ " <a href=\x27" ++ d.link ++ "\x27>Link</a></li>")
    "<h1>Found the following Model 3 Lease deals:</h1><ul>") ++ "</ul>"

/-- The subject line. -/
def subjectOf (deals : List Deal) : String :=
  "Tesla Alert: " ++ toString deals.length ++ " Lease Deal(s) Found!"

/-- `send_notification(deals)` under configuration `cfg`: the empty-input
guard, the config guard (which tests only the API token and `MAIL_TO`),
then the payload build and the single POST.  `MAIL_FROM or
f"notifier@{MAILERSEND_DOMAIN}"` keeps a truthy `MAIL_FROM`, else falls
back to the domain-derived sender. -/
def send_notification (cfg : Config) (deals : List Deal) : NotifyResult :=
  if deals.isEmpty then .noDeals
  else if !strTruthy cfg.token || !strTruthy cfg.mailTo then .configMissing
  else
    .send
      { sender := if strTruthy cfg.mailFrom then optStr cfg.mailFrom
                  else "notifier@" ++ optStr cfg.domain,
        recipient := optStr cfg.mailTo,
        subject := subjectOf deals,
        text := textBody deals,
        html := htmlBody deals }

/-- Does the notifier reach the network call? -/
def isSend : NotifyResult → Bool
  | .send _ => true
  | _ => false

/-- The posted text body, when a POST happens. -/
def sentText : NotifyResult → Option String
  | .send p => some p.text
  | _ => none

def vinOf (kvs : List (String × JVal)) : JVal :=
  (lookupStr "VIN" kvs).getD (.jstr "N/A")

def mkDealOf (kvs : List (String × JVal)) (q : ℚ) : Deal :=
  { vin := vinOf kvs,
    year := (lookupStr "Year" kvs).getD (.jstr "N/A"),
    price := (lookupStr "Price" kvs).getD ((lookupStr "InventoryPrice" kvs).getD (.jint 0)),
    lease_payment := q,
    link := "https://www.tesla.com/m3/order/" ++ pyStr (vinOf kvs) ++ "?titleStatus=USED" }

def entryYields (fd : JVal) (q : ℚ) : Prop :=
  ∃ calcV outputs inputs o val,
    pyGet fd "calculated" (.jobj []) = .ok calcV ∧
    pyGet calcV "outputs" (.jobj []) = .ok outputs ∧
    pyGet calcV "inputs" (.jobj []) = .ok inputs ∧
    pyGet outputs "monthlyPayment" .jnull = .ok o ∧
    (if truthy o then Except.ok o else pyGet inputs "monthlyPayment" .jnull) = Except.ok val ∧
    truthy val = true ∧
    pyFloat val = .ok q

def falsyMP (v : JVal) : Prop :=
  v = .jnull ∨ v = .jint 0 ∨ v = .jfloat 0 ∨ v = .jstr ""

def unresolvedEntry (fd : JVal) : Prop :=
  ∃ calcV outputs inputs o i,
    pyGet fd "calculated" (.jobj []) = .ok calcV ∧
    pyGet calcV "outputs" (.jobj []) = .ok outputs ∧
    pyGet calcV "inputs" (.jobj []) = .ok inputs ∧
    pyGet outputs "monthlyPayment" .jnull = .ok o ∧
    pyGet inputs "monthlyPayment" .jnull = .ok i ∧
    falsyMP o ∧ falsyMP i

def leaseBlk (v : JVal) : JVal :=
  .jobj [("calculated", .jobj [("outputs", .jobj [("monthlyPayment", v)])])]

def car175 : JVal :=
  .jobj [("VIN", .jstr "VINA"), ("Year", .jint 2021), ("Price", .jint 30000),
         ("FinplatDetails", .jobj [("FINPLAT_AUTO_LEASE:PRIVATE", leaseBlk (.jfloat 175))])]

def deal175 : Deal :=
  { vin := .jstr "VINA", year := .jint 2021, price := .jint 30000, lease_payment := 175,
    link := "https://www.tesla.com/m3/order/VINA?titleStatus=USED" }

def car17501 : JVal :=
  .jobj [("VIN", .jstr "VINB"), ("Year", .jint 2022), ("Price", .jint 32000),
         ("FinplatDetails", .jobj [("FINPLAT_AUTO_LEASE:PRIVATE", leaseBlk (.jfloat (mkRat 17501 100)))])]

def dataC1 : JVal := .jobj [("results", .jarr [car175, car17501])]

def carsC6 : List JVal := [car175, car17501]

def itemsNoLease : List (String × JVal) := [("AUTO_LOAN", leaseBlk (.jfloat 100))]

def zeroBlk : JVal :=
  .jobj [("calculated", .jobj [("outputs", .jobj [("monthlyPayment", .jint 0)]),
                               ("inputs", .jobj [("monthlyPayment", .jstr "")])])]

def itemsFalsy : List (String × JVal) := [("FINPLAT_AUTO_LEASE:PRIVATE", zeroBlk)]

def preC3 : List (String × JVal) := [("FINPLAT_AUTO_LEASE:A", leaseBlk (.jint 0))]

def fdC3 : JVal := leaseBlk (.jfloat 120)

def postC3 : List (String × JVal) := [("FINPLAT_AUTO_LEASE:C", leaseBlk (.jfloat 99))]

def fdCoerce : JVal := leaseBlk (.jstr "not-a-number")

def restC4 : List (String × JVal) := [("FINPLAT_AUTO_LEASE:Z", leaseBlk (.jfloat 120))]

def carBadFin : JVal := .jobj [("FinplatDetails", .jobj [("AUTO_LEASE", .jint 5)])]

def dataC4 : JVal := .jobj [("results", .jarr [carBadFin, car175])]

def cfgNoSender : Config :=
  { token := some "tok", domain := none, mailFrom := none, mailTo := some "user@example.com" }

def cfgNone : Config := { token := none, domain := none, mailFrom := none, mailTo := none }

def kvsBare : List (String × JVal) :=
  [("FinplatDetails", .jobj [("FINPLAT_AUTO_LEASE:P", leaseBlk (.jfloat 150))])]

def dealBare : Deal :=
  { vin := .jstr "N/A", year := .jstr "N/A", price := .jint 0, lease_payment := 150,
    link := "https://www.tesla.com/m3/order/N/A?titleStatus=USED" }

def cfgC9 : Config :=
  { token := some "tok", domain := some "example.mlsender.net",
    mailFrom := some "from@example.com", mailTo := some "to@example.com" }

def carC9 : JVal :=
  .jobj [("VIN", .jstr "5YJ3E1EA0"), ("Year", .jint 2020), ("Price", .jint 28000),
         ("FinplatDetails", .jobj [("FINPLAT_AUTO_LEASE:PRIVATE", leaseBlk (.jfloat 150))])]

def dealC9 : Deal :=
  { vin := .jstr "5YJ3E1EA0", year := .jint 2020, price := .jint 28000, lease_payment := 150,
    link := "https://www.tesla.com/m3/order/5YJ3E1EA0?titleStatus=USED" }

theorem processCar_obj (kvs : List (String × JVal)) :
    processCar (.jobj kvs) =
      (carLease (.jobj kvs)).bind (fun lp =>
        match lp with
        | none => Except.ok none
        | some q =>
            if q ≤ MAX_LEASE_PAYMENT then Except.ok (some (mkDealOf kvs q))
            else Except.ok none) := by
  unfold processCar carLease
  cases hI : pyItems ((lookupStr "FinplatDetails" kvs).getD (.jobj [])) with
  | error e =>
      simp [pyGet, Bind.bind, Except.bind, hI]
  | ok items =>
      cases hR : resolveLoop items with
      | error e => simp [pyGet, Bind.bind, Except.bind, hI, hR]
      | ok lp =>
          cases lp with
          | none => simp [pyGet, Bind.bind, Except.bind, hI, hR]
          | some q => simp [pyGet, Bind.bind, Except.bind, hI, hR, mkDealOf, vinOf]

theorem processCar_ok_obj {v : JVal} {d : Option Deal}
    (h : processCar v = .ok d) : ∃ kvs, v = .jobj kvs := by
  cases v with
  | jobj kvs => exact ⟨kvs, rfl⟩
  | jnull => simp [processCar, pyGet, Bind.bind, Except.bind] at h
  | jbool b => simp [processCar, pyGet, Bind.bind, Except.bind] at h
  | jint n => simp [processCar, pyGet, Bind.bind, Except.bind] at h
  | jfloat q => simp [processCar, pyGet, Bind.bind, Except.bind] at h
  | jstr s => simp [processCar, pyGet, Bind.bind, Except.bind] at h
  | jarr xs => simp [processCar, pyGet, Bind.bind, Except.bind] at h

theorem carLease_ok_obj {v : JVal} {r : Option ℚ}
    (h : carLease v = .ok r) : ∃ kvs, v = .jobj kvs := by
  cases v with
  | jobj kvs => exact ⟨kvs, rfl⟩
  | jnull => simp [carLease, pyGet, Bind.bind, Except.bind] at h
  | jbool b => simp [carLease, pyGet, Bind.bind, Except.bind] at h
  | jint n => simp [carLease, pyGet, Bind.bind, Except.bind] at h
  | jfloat q => simp [carLease, pyGet, Bind.bind, Except.bind] at h
  | jstr s => simp [carLease, pyGet, Bind.bind, Except.bind] at h
  | jarr xs => simp [carLease, pyGet, Bind.bind, Except.bind] at h

theorem resolveLoop_cons_none {k : String} {fd : JVal}
    (h : leaseStep k fd = .ok none) (rest : List (String × JVal)) :
    resolveLoop ((k, fd) :: rest) = resolveLoop rest := by
  simp [resolveLoop, Bind.bind, Except.bind, h]

theorem resolveLoop_cons_some {k : String} {fd : JVal} {q : ℚ}
    (h : leaseStep k fd = .ok (some q)) (rest : List (String × JVal)) :
    resolveLoop ((k, fd) :: rest) = .ok (some q) := by
  simp [resolveLoop, Bind.bind, Except.bind, h]

theorem resolveLoop_append_none {pre : List (String × JVal)}
    (h : ∀ e ∈ pre, leaseStep e.1 e.2 = .ok none) (l : List (String × JVal)) :
    resolveLoop (pre ++ l) = resolveLoop l := by
  induction pre with
  | nil => rfl
  | cons e rest ih =>
      obtain ⟨k1, fd1⟩ := e
      have he : leaseStep k1 fd1 = .ok none := h (k1, fd1) (by simp)
      have hr : ∀ x ∈ rest, leaseStep x.1 x.2 = .ok none := fun x hx => h x (by simp [hx])
      rw [List.cons_append, resolveLoop_cons_none he (rest ++ l)]
      exact ih hr

theorem leaseStep_yields {k : String} {fd : JVal} {q : ℚ}
    (hk : strContains k "LEASE" = true) (hy : entryYields fd q) :
    leaseStep k fd = .ok (some q) := by
  obtain ⟨calcV, outputs, inputs, o, val, h1, h2, h3, h4, h5, h6, h7⟩ := hy
  by_cases ho : truthy o = true
  · rw [if_pos ho] at h5
    have hval : val = o := (Except.ok.inj h5).symm
    subst hval
    simp [leaseStep, hk, Bind.bind, Except.bind, h1, h2, h3, h4, ho, h6, h7]
  · have ho' : truthy o = false := by simpa using ho
    rw [if_neg (by simp [ho'])] at h5
    simp [leaseStep, hk, Bind.bind, Except.bind, h1, h2, h3, h4, ho', h5, h6, h7]

theorem leaseStep_nonlease {k : String} (fd : JVal)
    (hk : strContains k "LEASE" = false) : leaseStep k fd = .ok none := by
  simp [leaseStep, hk]

theorem falsyMP_not_truthy {v : JVal} (h : falsyMP v) : truthy v = false := by
  rcases h with h | h | h | h <;> subst h <;> rfl

theorem leaseStep_unresolved {k : String} {fd : JVal}
    (hu : unresolvedEntry fd) : leaseStep k fd = .ok none := by
  by_cases hk : strContains k "LEASE" = true
  · obtain ⟨calcV, outputs, inputs, o, i, h1, h2, h3, h4, h5, ho, hi⟩ := hu
    have ho' := falsyMP_not_truthy ho
    have hi' := falsyMP_not_truthy hi
    simp [leaseStep, hk, Bind.bind, Except.bind, h1, h2, h3, h4, h5, ho', hi']
  · exact leaseStep_nonlease fd (by simpa using hk)

theorem leaseStep_coerce_fail {k : String} {fd calcV outputs inputs o val : JVal} {e : PyErr}
    (hk : strContains k "LEASE" = true)
    (h1 : pyGet fd "calculated" (.jobj []) = .ok calcV)
    (h2 : pyGet calcV "outputs" (.jobj []) = .ok outputs)
    (h3 : pyGet calcV "inputs" (.jobj []) = .ok inputs)
    (h4 : pyGet outputs "monthlyPayment" .jnull = .ok o)
    (h5 : (if truthy o then Except.ok o else pyGet inputs "monthlyPayment" .jnull) = Except.ok val)
    (h6 : truthy val = true)
    (h7 : pyFloat val = .error e) :
    leaseStep k fd = .ok none := by
  by_cases ho : truthy o = true
  · rw [if_pos ho] at h5
    have hval : val = o := (Except.ok.inj h5).symm
    subst hval
    simp [leaseStep, hk, Bind.bind, Except.bind, h1, h2, h3, h4, ho, h6, h7]
  · have ho' : truthy o = false := by simpa using ho
    rw [if_neg (by simp [ho'])] at h5
    simp [leaseStep, hk, Bind.bind, Except.bind, h1, h2, h3, h4, ho', h5, h6, h7]

theorem processCars_filterMap : ∀ {cars : List JVal} {deals : List Deal},
    processCars cars = .ok deals → deals = cars.filterMap carToDeal := by
  intro cars
  induction cars with
  | nil => intro deals h; simpa [processCars] using (Except.ok.inj h).symm
  | cons car rest ih =>
      intro deals h
      cases hc : processCar car with
      | error e => simp [processCars, Bind.bind, Except.bind, hc] at h
      | ok d =>
          cases hr : processCars rest with
          | error e => simp [processCars, Bind.bind, Except.bind, hc, hr] at h
          | ok ds =>
              have hds := ih hr
              cases d with
              | none =>
                  simp [processCars, Bind.bind, Except.bind, hc, hr] at h
                  simp [List.filterMap, carToDeal, hc, ← h, hds]
              | some x =>
                  simp [processCars, Bind.bind, Except.bind, hc, hr] at h
                  simp [List.filterMap, carToDeal, hc, ← h, hds]

theorem find_deals_bind (data : JVal) :
    find_deals data = (listingsOf data).bind processCars := by
  unfold find_deals listingsOf
  by_cases ht : truthy data = true
  · simp only [ht]
    cases hin : pyIn "results" data with
    | error e => simp [Bind.bind, Except.bind, hin]
    | ok has =>
        cases has with
        | false => simp [Bind.bind, Except.bind, hin, processCars]
        | true =>
            cases hs : pySubscript data "results" with
            | error e => simp [Bind.bind, Except.bind, hin, hs]
            | ok rs =>
                cases hl : pyLen rs with
                | error e => simp [Bind.bind, Except.bind, hin, hs, hl]
                | ok n =>
                    cases hi : pyIter rs with
                    | error e => simp [Bind.bind, Except.bind, hin, hs, hl, hi]
                    | ok cars => simp [Bind.bind, Except.bind, hin, hs, hl, hi]
  · have ht' : truthy data = false := by simpa using ht
    simp [ht', Except.bind, processCars]

theorem processCar_some_inv {kvs : List (String × JVal)} {d : Deal}
    (h : processCar (.jobj kvs) = .ok (some d)) :
    ∃ q, carLease (.jobj kvs) = .ok (some q) ∧ q ≤ MAX_LEASE_PAYMENT ∧ d = mkDealOf kvs q := by
  rw [processCar_obj] at h
  cases hL : carLease (.jobj kvs) with
  | error e => rw [hL] at h; simp [Except.bind] at h
  | ok lp =>
      rw [hL] at h
      cases lp with
      | none => simp [Except.bind] at h
      | some q =>
          by_cases hq : q ≤ MAX_LEASE_PAYMENT
          · refine ⟨q, rfl, hq, ?_⟩
            simp [Except.bind, hq] at h
            exact h.symm
          · simp [Except.bind, hq] at h

theorem processCar_le {car : JVal} {d : Deal}
    (h : processCar car = .ok (some d)) : d.lease_payment ≤ MAX_LEASE_PAYMENT := by
  obtain ⟨kvs, rfl⟩ := processCar_ok_obj h
  obtain ⟨q, _, hq, rfl⟩ := processCar_some_inv h
  exact hq

theorem processCars_le : ∀ {cars : List JVal} {deals : List Deal},
    processCars cars = .ok deals → ∀ d ∈ deals, d.lease_payment ≤ MAX_LEASE_PAYMENT := by
  intro cars
  induction cars with
  | nil =>
      intro deals h d hd
      have : deals = [] := (Except.ok.inj h).symm
      subst this; simp at hd
  | cons car rest ih =>
      intro deals h d hd
      cases hc : processCar car with
      | error e => simp [processCars, Bind.bind, Except.bind, hc] at h
      | ok x =>
          cases hr : processCars rest with
          | error e => simp [processCars, Bind.bind, Except.bind, hc, hr] at h
          | ok ds =>
              cases x with
              | none =>
                  simp [processCars, Bind.bind, Except.bind, hc, hr] at h
                  exact ih hr d (by rw [h]; exact hd)
              | some y =>
                  simp [processCars, Bind.bind, Except.bind, hc, hr] at h
                  rw [← h] at hd
                  rcases List.mem_cons.mp hd with rfl | hd'
                  · exact processCar_le hc
                  · exact ih hr d hd'

/-- C1: a listing whose lease payment resolves to `p` yields a deal record
iff `p ≤ MAX_LEASE_PAYMENT`, and every deal `find_deals` returns satisfies
`lease_payment ≤ MAX_LEASE_PAYMENT`. -/
theorem C1_threshold_filter :
    (∀ data deals, find_deals data = .ok deals →
        ∀ d ∈ deals, d.lease_payment ≤ MAX_LEASE_PAYMENT) ∧
    (∀ car p, carLease car = .ok (some p) →
        ((∃ d, processCar car = .ok (some d) ∧ d.lease_payment = p) ↔
          p ≤ MAX_LEASE_PAYMENT)) := by
  constructor
  · intro data deals h d hd
    rw [find_deals_bind] at h
    cases hq : listingsOf data with
    | error e => rw [hq] at h; simp [Except.bind] at h
    | ok cars =>
        rw [hq] at h
        exact processCars_le h d hd
  · intro car p hL
    obtain ⟨kvs, rfl⟩ := carLease_ok_obj hL
    constructor
    · rintro ⟨d, hd, hlp⟩
      obtain ⟨q, hq1, hq2, rfl⟩ := processCar_some_inv hd
      rw [hL] at hq1
      have hpq : p = q := Except.ok.inj hq1 |> Option.some.inj
      rw [hpq]
      exact hq2
    · intro hp
      refine ⟨mkDealOf kvs p, ?_, rfl⟩
      rw [processCar_obj, hL]
      simp [Except.bind, hp]

/-- C6: deals returned by the extractor are an order-preserving selection
(`filterMap`) of the listings iterated, with no re-sorting. -/
theorem C6_order_preserved :
    ∀ data deals, find_deals data = .ok deals →
      ∃ cars, listingsOf data = .ok cars ∧ deals = cars.filterMap carToDeal := by
  intro data deals h
  rw [find_deals_bind] at h
  cases hq : listingsOf data with
  | error e => rw [hq] at h; simp [Except.bind] at h
  | ok cars =>
      rw [hq] at h
      exact ⟨cars, rfl, processCars_filterMap h⟩

/-- C2: a listing none of whose finance keys contain "LEASE", or all of
whose lease-like keys carry a monthly payment that is 0, the empty string,
null or absent under both outputs and inputs, resolves no lease payment
and yields no deal record. -/
theorem C2_unresolved_drops :
    ∀ kvs items,
      (lookupStr "FinplatDetails" kvs).getD (.jobj []) = .jobj items →
      (∀ k fd, (k, fd) ∈ items → strContains k "LEASE" = true → unresolvedEntry fd) →
      carLease (.jobj kvs) = .ok none ∧ processCar (.jobj kvs) = .ok none := by
  intro kvs items hfin hall
  have hloop : resolveLoop items = .ok none := by
    clear hfin
    induction items with
    | nil => rfl
    | cons e rest ih =>
        obtain ⟨k1, fd1⟩ := e
        have hstep : leaseStep k1 fd1 = .ok none := by
          by_cases hk : strContains k1 "LEASE" = true
          · exact leaseStep_unresolved (hall k1 fd1 (by simp) hk)
          · exact leaseStep_nonlease fd1 (by simpa using hk)
        have hrest : ∀ k fd, (k, fd) ∈ rest → strContains k "LEASE" = true → unresolvedEntry fd :=
          fun k fd hm hl => hall k fd (by simp [hm]) hl
        rw [resolveLoop_cons_none hstep rest]
        exact ih hrest
  have hcl : carLease (.jobj kvs) = .ok none := by
    simp [carLease, pyGet, Bind.bind, Except.bind, hfin, pyItems, hloop]
  refine ⟨hcl, ?_⟩
  rw [processCar_obj, hcl]
  simp [Except.bind]

/-- C3: with the earlier entries of the finance mapping yielding nothing,
the first lease-like key that yields a truthy, numerically coercible
monthly payment determines the resolved value, and the entries after it
are never consulted (the same value results for every continuation). -/
theorem C3_first_match_short_circuits :
    ∀ pre k fd q,
      (∀ e ∈ pre, leaseStep e.1 e.2 = .ok none) →
      strContains k "LEASE" = true →
      entryYields fd q →
      ∀ post, resolveLoop (pre ++ (k, fd) :: post) = .ok (some q) := by
  intro pre k fd q hpre hk hy post
  rw [resolveLoop_append_none hpre]
  exact resolveLoop_cons_some (leaseStep_yields hk hy) post

/-- C4 (amended): a truthy monthly-payment value that fails numeric
coercion is swallowed (`except (ValueError, TypeError)`) and the scan
continues with the remaining keys. -/
theorem C4_coercion_recovery :
    ∀ (k : String) (fd : JVal) (rest : List (String × JVal))
      (calcV outputs inputs o val : JVal) (e : PyErr),
      strContains k "LEASE" = true →
      pyGet fd "calculated" (.jobj []) = .ok calcV →
      pyGet calcV "outputs" (.jobj []) = .ok outputs →
      pyGet calcV "inputs" (.jobj []) = .ok inputs →
      pyGet outputs "monthlyPayment" .jnull = .ok o →
      (if truthy o then Except.ok o else pyGet inputs "monthlyPayment" .jnull) = Except.ok val →
      truthy val = true →
      pyFloat val = .error e →
      resolveLoop ((k, fd) :: rest) = resolveLoop rest := by
  intro k fd rest calcV outputs inputs o val e hk h1 h2 h3 h4 h5 h6 h7
  exact resolveLoop_cons_none (leaseStep_coerce_fail hk h1 h2 h3 h4 h5 h6 h7) rest

/-- C5 (amended): when the API token or the recipient is unset or empty,
the notifier returns without reaching the network call. -/
theorem C5_config_guard :
    ∀ cfg deals, deals ≠ [] →
      (strTruthy cfg.token = false ∨ strTruthy cfg.mailTo = false) →
      send_notification cfg deals = .configMissing := by
  intro cfg deals hne hcfg
  cases deals with
  | nil => exact absurd rfl hne
  | cons d rest => rcases hcfg with h | h <;> simp [send_notification, h]

/-- C7: an emitted record defaults a missing VIN and year to "N/A", reads
the price from "Price" then "InventoryPrice" then 0, and a resolved
below-threshold lease always emits regardless of the price fields. -/
theorem C7_field_defaults :
    (∀ kvs d, processCar (.jobj kvs) = .ok (some d) →
        (lookupStr "VIN" kvs = none → d.vin = .jstr "N/A") ∧
        (lookupStr "Year" kvs = none → d.year = .jstr "N/A") ∧
        d.price = (lookupStr "Price" kvs).getD ((lookupStr "InventoryPrice" kvs).getD (.jint 0))) ∧
    (∀ kvs p, carLease (.jobj kvs) = .ok (some p) → p ≤ MAX_LEASE_PAYMENT →
        ∃ d, processCar (.jobj kvs) = .ok (some d)) := by
  constructor
  · intro kvs d h
    obtain ⟨q, hL, hq, rfl⟩ := processCar_some_inv h
    refine ⟨?_, ?_, rfl⟩
    · intro hv; simp [mkDealOf, vinOf, hv]
    · intro hy; simp [mkDealOf, hy]
  · intro kvs p hL hp
    refine ⟨mkDealOf kvs p, ?_⟩
    rw [processCar_obj, hL]
    simp [Except.bind, hp]

theorem any_key_eq_lookup (k : String) : ∀ kvs : List (String × JVal),
    kvs.any (fun p => p.1 = k) = (lookupStr k kvs).isSome := by
  intro kvs
  induction kvs with
  | nil => rfl
  | cons e rest ih =>
      obtain ⟨k2, v⟩ := e
      by_cases h : k2 = k
      · simp [lookupStr, h]
      · simp [lookupStr, h, ih]

/-- C8: a falsy response, a response without a "results" key and an empty
results list all extract to the empty list, and the notifier on an empty
list returns immediately. -/
theorem C8_empty_behaviour :
    find_deals .jnull = .ok [] ∧
    (∀ kvs, lookupStr "results" kvs = none → find_deals (.jobj kvs) = .ok []) ∧
    (∀ kvs, lookupStr "results" kvs = some (.jarr []) → find_deals (.jobj kvs) = .ok []) ∧
    (∀ cfg, send_notification cfg [] = .noDeals) := by
  refine ⟨rfl, ?_, ?_, fun cfg => rfl⟩
  · intro kvs h
    cases kvs with
    | nil => rfl
    | cons e rest =>
        have hany := any_key_eq_lookup "results" (e :: rest)
        rw [h] at hany
        simp [find_deals, truthy, pyIn, Bind.bind, Except.bind, hany]
  · intro kvs h
    cases kvs with
    | nil => simp [lookupStr] at h
    | cons e rest =>
        have hany := any_key_eq_lookup "results" (e :: rest)
        rw [h] at hany
        simp [find_deals, truthy, pyIn, Bind.bind, Except.bind, hany, pySubscript, h, pyLen,
          pyIter, processCars]

/-- C10: a listing without a VIN whose lease payment resolves at or below
the threshold still emits, with the sentinel VIN and the sentinel link. -/
theorem C10_missing_vin_sentinel :
    ∀ kvs p, lookupStr "VIN" kvs = none →
      carLease (.jobj kvs) = .ok (some p) → p ≤ MAX_LEASE_PAYMENT →
      ∃ d, processCar (.jobj kvs) = .ok (some d) ∧ d.vin = .jstr "N/A" ∧
        d.link = "https://www.tesla.com/m3/order/N/A?titleStatus=USED" := by
  intro kvs p hv hL hp
  refine ⟨mkDealOf kvs p, ?_, ?_, ?_⟩
  · rw [processCar_obj, hL]
    simp [Except.bind, hp]
  · simp [mkDealOf, vinOf, hv]
  · simp [mkDealOf, vinOf, hv, pyStr]

theorem C1_threshold_filter_witness :
    deal175.lease_payment ≤ MAX_LEASE_PAYMENT ∧
    carLease car175 = .ok (some 175) ∧
    ((∃ d, processCar car175 = .ok (some d) ∧ d.lease_payment = (175 : ℚ)) ↔
      (175 : ℚ) ≤ MAX_LEASE_PAYMENT) ∧
    carLease car17501 = .ok (some (mkRat 17501 100)) ∧
    ((∃ d, processCar car17501 = .ok (some d) ∧ d.lease_payment = (mkRat 17501 100)) ↔
      (mkRat 17501 100) ≤ MAX_LEASE_PAYMENT) :=
  ⟨C1_threshold_filter.1 dataC1 [deal175] rfl deal175 (by simp),
   rfl, C1_threshold_filter.2 car175 175 rfl,
   rfl, C1_threshold_filter.2 car17501 (mkRat 17501 100) rfl⟩

theorem C6_order_preserved_witness :
    [deal175] = carsC6.filterMap carToDeal := by
  obtain ⟨cars, h1, h2⟩ := C6_order_preserved dataC1 [deal175] rfl
  have hc : carsC6 = cars :=
    Except.ok.inj ((show listingsOf dataC1 = Except.ok carsC6 from rfl).symm.trans h1)
  rw [← hc] at h2
  exact h2

theorem C2_unresolved_drops_witness :
    (carLease (.jobj [("FinplatDetails", .jobj itemsNoLease)]) = .ok none ∧
      processCar (.jobj [("FinplatDetails", .jobj itemsNoLease)]) = .ok none) ∧
    (carLease (.jobj [("FinplatDetails", .jobj itemsFalsy)]) = .ok none ∧
      processCar (.jobj [("FinplatDetails", .jobj itemsFalsy)]) = .ok none) := by
  constructor
  · refine C2_unresolved_drops [("FinplatDetails", .jobj itemsNoLease)] itemsNoLease rfl ?_
    intro k fd hm hl
    simp [itemsNoLease] at hm
    obtain ⟨rfl, rfl⟩ := hm
    exact absurd hl (by decide)
  · refine C2_unresolved_drops [("FinplatDetails", .jobj itemsFalsy)] itemsFalsy rfl ?_
    intro k fd hm hl
    simp [itemsFalsy] at hm
    obtain ⟨rfl, rfl⟩ := hm
    exact ⟨.jobj [("outputs", .jobj [("monthlyPayment", .jint 0)]),
                  ("inputs", .jobj [("monthlyPayment", .jstr "")])],
           .jobj [("monthlyPayment", .jint 0)], .jobj [("monthlyPayment", .jstr "")],
           .jint 0, .jstr "", rfl, rfl, rfl, rfl, rfl,
           Or.inr (Or.inl rfl), Or.inr (Or.inr (Or.inr rfl))⟩

theorem C3_first_match_short_circuits_witness :
    resolveLoop (preC3 ++ ("FINPLAT_AUTO_LEASE:B", fdC3) :: postC3) = .ok (some 120) := by
  refine C3_first_match_short_circuits preC3 "FINPLAT_AUTO_LEASE:B" fdC3 120 ?_ (by decide) ?_ postC3
  · intro e he
    simp [preC3] at he
    rw [he]
    rfl
  · exact ⟨.jobj [("outputs", .jobj [("monthlyPayment", .jfloat 120)])],
           .jobj [("monthlyPayment", .jfloat 120)], .jobj [], .jfloat 120, .jfloat 120,
           rfl, rfl, rfl, rfl, rfl, rfl, rfl⟩

theorem C4_coercion_recovery_witness :
    resolveLoop (("AUTO_LEASE", fdCoerce) :: restC4) = resolveLoop restC4 :=
  C4_coercion_recovery "AUTO_LEASE" fdCoerce restC4
    (.jobj [("outputs", .jobj [("monthlyPayment", .jstr "not-a-number")])])
    (.jobj [("monthlyPayment", .jstr "not-a-number")]) (.jobj [])
    (.jstr "not-a-number") (.jstr "not-a-number") .valueError
    (by decide) rfl rfl rfl rfl rfl rfl rfl

/-- C4 counterexample: a lease-like entry whose value is not a mapping
makes the `.get` chain raise an AttributeError that `except (ValueError,
TypeError)` does not catch, aborting the whole batch — the well-formed
matching listing after it is lost (alone it would produce a deal). -/
theorem C4_batch_abort_counterexample :
    find_deals dataC4 = .error .attributeError ∧
    find_deals (.jobj [("results", .jarr [car175])]) = .ok [deal175] :=
  ⟨rfl, rfl⟩

/-- C5 counterexample: with credentials and recipient set but the sender
variable absent, the notifier still reaches the network call (the guard
tests only the token and the recipient; the sender silently falls back to
"notifier@None"). -/
theorem C5_sender_unguarded_counterexample :
    strTruthy cfgNoSender.mailFrom = false ∧
    isSend (send_notification cfgNoSender [deal175]) = true := ⟨rfl, rfl⟩

theorem C5_config_guard_witness :
    send_notification cfgNone [deal175] = .configMissing :=
  C5_config_guard cfgNone [deal175] (by simp) (Or.inl rfl)

theorem C7_field_defaults_witness :
    dealBare.vin = .jstr "N/A" ∧ dealBare.year = .jstr "N/A" ∧
    dealBare.price =
      (lookupStr "Price" kvsBare).getD ((lookupStr "InventoryPrice" kvsBare).getD (.jint 0)) := by
  have h := C7_field_defaults.1 kvsBare dealBare rfl
  exact ⟨h.1 rfl, h.2.1 rfl, h.2.2⟩

theorem C10_missing_vin_sentinel_witness :
    dealBare.vin = .jstr "N/A" ∧
    dealBare.link = "https://www.tesla.com/m3/order/N/A?titleStatus=USED" := by
  obtain ⟨d, h1, h2, h3⟩ := C10_missing_vin_sentinel kvsBare 150 rfl rfl (by decide)
  have hd : dealBare = d :=
    Option.some.inj
      (Except.ok.inj ((show processCar (.jobj kvsBare) = Except.ok (some dealBare) from rfl).symm.trans h1))
  rw [hd]
  exact ⟨h2, h3⟩

theorem C8_empty_behaviour_witness :
    find_deals (.jobj [("foo", .jint 1)]) = .ok [] ∧
    find_deals (.jobj [("results", .jarr [])]) = .ok [] ∧
    send_notification cfgC9 [] = .noDeals :=
  ⟨C8_empty_behaviour.2.1 [("foo", .jint 1)] rfl,
   C8_empty_behaviour.2.2.1 [("results", .jarr [])] rfl,
   C8_empty_behaviour.2.2.2 cfgC9⟩

/-- C9: the matching record with year 2020, lease 150.0 and VIN
"5YJ3E1EA0" gets exactly the claimed order link, and the notifier's text
body contains the claimed line fragment. -/
theorem C9_link_and_body :
    find_deals (.jobj [("results", .jarr [carC9])]) = .ok [dealC9] ∧
    dealC9.link = "https://www.tesla.com/m3/order/5YJ3E1EA0?titleStatus=USED" ∧
    sentText (send_notification cfgC9 [dealC9]) = some (textBody [dealC9]) ∧
    strContains (textBody [dealC9]) "Year: 2020, Lease: $150.0/mo" = true :=
  ⟨rfl, rfl, rfl, rfl⟩
